import Mathlib

/-!
Verification of the CUTMV server core (chunked upload assembler, timestamp
parser/validator, random cut generator, processing-job progress registry)
against its natural-language specification.

The TypeScript source is shallowly embedded: strings are `List Char`, JS
numbers that can be `NaN` are `Option Nat` (with `none` playing the role of
`NaN`), and each Express handler body is a pure state-transition function.
-/

/-- Strings are embedded as lists of characters. -/
abbrev Str := List Char

/-- The whitespace characters matched by JavaScript `\s` and `String.trim`
(space, tab, LF, CR, VT, FF, NBSP, and the Unicode space separators). -/
def jsWhitespaceChars : Str :=
  [' ', '\t', '\n', '\r', '\x0b', '\x0c', '\u00a0', '\u1680',
   '\u2000', '\u2001', '\u2002', '\u2003', '\u2004', '\u2005', '\u2006',
   '\u2007', '\u2008', '\u2009', '\u200a', '\u2028', '\u2029', '\u202f',
   '\u205f', '\u3000', '\ufeff']

/-- JS whitespace test (`\s`). -/
def jsIsWs (c : Char) : Bool := jsWhitespaceChars.contains c

/-- `String.prototype.trim`: strip whitespace from both ends. -/
def jsTrim (s : Str) : Str :=
  ((s.dropWhile jsIsWs).reverse.dropWhile jsIsWs).reverse

/-- `String.prototype.split` on a single-character separator class given by a
predicate: chunks between separator occurrences, empty chunks kept (as JS
`split` does for adjacent separators). -/
def splitOnPred (p : Char → Bool) : Str → List Str
  | [] => [[]]
  | x :: xs =>
    if p x then [] :: splitOnPred p xs
    else
      match splitOnPred p xs with
      | r :: rs => (x :: r) :: rs
      | [] => [[x]]

/-- `s.split(c)` for a single separator character. -/
def splitOnChar (c : Char) (s : Str) : List Str := splitOnPred (fun x => x == c) s

/-- The range-separator class `[-–,\s]` of `parseTimestamps`. -/
def isRangeSep (c : Char) : Bool := c == '-' || c == '–' || c == ',' || jsIsWs c

/-- ASCII digit value of a digit character. -/
def digitVal (c : Char) : Nat := c.toNat - 48

/-- Numeric value of a digit string (most significant digit first). -/
def natOfDigits (s : Str) : Nat := s.foldl (fun a c => 10 * a + digitVal c) 0

/-- JS `Number(s)` restricted to the shapes this code produces: digit-only
strings (the components of normalized timestamps and of `formatDuration`
output) map to their value, the empty string maps to `0` (as in JS), and
anything else is `NaN`, modelled as `none`. -/
def jsNumber (s : Str) : Option Nat :=
  if s = [] then some 0
  else if s.all Char.isDigit then some (natOfDigits s) else none

/-- JS `>=` on possibly-NaN numbers: any comparison with `NaN` is `false`. -/
def jsGe (a b : Option Nat) : Bool :=
  match a, b with
  | some x, some y => x ≥ y
  | _, _ => false

/-- JS `>` on possibly-NaN numbers: any comparison with `NaN` is `false`. -/
def jsGt (a b : Option Nat) : Bool :=
  match a, b with
  | some x, some y => x > y
  | _, _ => false

/-- JS `<` on possibly-NaN numbers: any comparison with `NaN` is `false`. -/
def jsLt (a b : Option Nat) : Bool :=
  match a, b with
  | some x, some y => x < y
  | _, _ => false

/-- JS truthiness of a `null`-or-number value: `null`, `NaN` and `0` are
falsy (`null` and `NaN` are merged into `none`; they behave identically in
every guard of this code). -/
def jsTruthy (a : Option Nat) : Bool :=
  match a with
  | some n => n ≠ 0
  | none => false

/-- `Math.max` (NaN-propagating). -/
def jsMax (a b : Option Nat) : Option Nat :=
  match a, b with
  | some x, some y => some (max x y)
  | _, _ => none

/-- `Math.min` (NaN-propagating). -/
def jsMin (a b : Option Nat) : Option Nat :=
  match a, b with
  | some x, some y => some (min x y)
  | _, _ => none

/-- JS subtraction of possibly-NaN numbers, landing in `Option Int`. -/
def jsSub (a b : Option Nat) : Option Int :=
  match a, b with
  | some x, some y => some ((x : Int) - (y : Int))
  | _, _ => none

/-- `x.toFixed(1)` for the integer-or-NaN values this code feeds it. -/
def toFixed1 (a : Option Int) : String :=
  match a with
  | some z => toString z ++ ".0"
  | none => "NaN"

/-- `String.prototype.padStart(n, c)`. -/
def padStart (n : Nat) (c : Char) (s : Str) : Str :=
  List.replicate (n - s.length) c ++ s

/-- Fuelled helper for `natToStr`; the fuel is only there to make the
recursion structural (any fuel above the number's value is enough). -/
def natToStrFuel : Nat → Nat → Str
  | 0, _ => []
  | fuel + 1, n =>
    if n < 10 then [Nat.digitChar n]
    else natToStrFuel fuel (n / 10) ++ [Nat.digitChar (n % 10)]

/-- `Number.prototype.toString()` for a natural number (decimal digits). -/
def natToStr (n : Nat) : Str := natToStrFuel (n + 1) n

/-- The two-digit rendering of a number below 100 (the form of every
component of a normalized `HH:MM:SS` timestamp). -/
def twoDigits (n : Nat) : Str := [Nat.digitChar (n / 10), Nat.digitChar (n % 10)]

/-- `Math.round((num / den) * 100)` for natural `num` and positive `den`:
JS `Math.round x` is half-up, `⌊x + 1/2⌋`, and
`⌊num / den * 100 + 1/2⌋ = (200 num + den) / (2 den)` in natural division;
the lemma `roundPct_eq_floor` below proves this equation. -/
def roundPct (num den : Nat) : ℤ := ((200 * num + den) / (2 * den) : ℕ)

/-- Whether a list of percent values is monotonically non-decreasing. -/
def nonDecreasing : List ℤ → Bool
  | [] => true
  | [_] => true
  | a :: b :: rest => if a ≤ b then nonDecreasing (b :: rest) else false

/-- `normalizeTimestamp` (source lines 907-932): trim, replace `;`/`.` by
`:`, then match `^(\d{1,2}):(\d{2})(?::(\d{2}))?$`.  The source destructures
the groups as `[, minutes, seconds, hours]`, so in the three-component case
it emits `g3:pad2(g1):g2`.  The regex is realised by splitting on `:` and
checking each component's digit-width, which agrees with the anchored match. -/
def normalizeTimestamp (timestamp : Str) : Option Str :=
  let t := jsTrim timestamp
  let t := t.map (fun c => if c == ';' || c == '.' then ':' else c)
  match splitOnChar ':' t with
  | [g1, g2] =>
    if (g1.length == 1 || g1.length == 2) && g1.all Char.isDigit
        && g2.length == 2 && g2.all Char.isDigit then
      some ('0' :: '0' :: ':' :: padStart 2 '0' g1 ++ ':' :: g2)
    else none
  | [g1, g2, g3] =>
    if (g1.length == 1 || g1.length == 2) && g1.all Char.isDigit
        && g2.length == 2 && g2.all Char.isDigit
        && g3.length == 2 && g3.all Char.isDigit then
      some (g3 ++ ':' :: padStart 2 '0' g1 ++ ':' :: g2)
    else none
  | _ => none

/-- `parseTimestamps` (source lines 885-905): split the text into nonempty
trimmed lines, tokenize each line on `[-–,\s]+` (JS `split` on the class
followed by the source's truthiness filter leaves exactly the maximal
separator-free runs), and keep the lines whose first two tokens both
normalize. -/
def parseTimestamps (text : Str) : List (Str × Str) :=
  let lines := ((splitOnChar '\n' text).map jsTrim).filter (· ≠ [])
  lines.filterMap (fun line =>
    let parts := (splitOnPred isRangeSep line).filter (· ≠ [])
    match parts with
    | p0 :: p1 :: _ =>
      match normalizeTimestamp (jsTrim p0), normalizeTimestamp (jsTrim p1) with
      | some startTime, some endTime => some (startTime, endTime)
      | _, _ => none
    | _ => none)

/-- `timestampToSeconds` (source lines 995-1003): split on `:`, map `Number`,
and combine; any other part count yields `0`.  `none` is `NaN`. -/
def timestampToSeconds (timestamp : Str) : Option Nat :=
  match (splitOnChar ':' timestamp).map jsNumber with
  | [a, b, c] =>
    match a, b, c with
    | some x, some y, some z => some (x * 3600 + y * 60 + z)
    | _, _, _ => none
  | [a, b] =>
    match a, b with
    | some x, some y => some (x * 60 + y)
    | _, _ => none
  | _ => some 0

/-- Result record of `validateTimestamps`. -/
structure ValidationResult where
  valid : List (Str × Str)
  errors : List String
  warnings : List String
deriving DecidableEq

/-- Overlap warnings of one candidate against the previously accepted clips
(source lines 960-974): for each accepted clip `j` that temporally intersects
the candidate, a warning naming both indices and the overlap length. -/
def overlapWarnings (i : Nat) (startSeconds endSeconds : Option Nat)
    (valid : List (Str × Str)) : List String :=
  (valid.enum.filterMap (fun pj =>
    let prevStartSeconds := timestampToSeconds pj.2.1
    let prevEndSeconds := timestampToSeconds pj.2.2
    if jsLt startSeconds prevEndSeconds && jsGt endSeconds prevStartSeconds then
      let overlapStart := jsMax startSeconds prevStartSeconds
      let overlapEnd := jsMin endSeconds prevEndSeconds
      let overlapDuration := jsSub overlapEnd overlapStart
      some ("Clip " ++ toString (i + 1) ++ " overlaps with clip "
        ++ toString (pj.1 + 1) ++ " by " ++ toFixed1 overlapDuration ++ " seconds")
    else none))

/-- Boundary-safety warnings of one candidate (source lines 976-987).  In
this integer model `startSeconds % 1 === 0` holds for every non-NaN value and
fails for `NaN`, exactly as in JS. -/
def boundaryWarnings (i : Nat) (startTime : Str) (startSeconds : Option Nat) :
    List String :=
  (match startSeconds with
   | some n =>
     if n > 0 then
       ["Clip " ++ toString (i + 1) ++ ": Starting at exact second ("
         ++ String.mk startTime
         ++ ") may show black frames. We\x27ll automatically nudge it forward 0.1s for cleaner cuts."]
     else []
   | none => [])
  ++ (if jsLt startSeconds (some 1) then
       ["Clip " ++ toString (i + 1) ++ ": Very early start time ("
         ++ String.mk startTime
         ++ ") may be in fade-in area. Black frame protection is active."]
      else [])
  ++ (if startSeconds == some 0 then
       ["Clip " ++ toString (i + 1)
         ++ ": Starting at 0:00 often contains black frames. Consider starting at 0:01 or later."]
      else [])

/-- The loop body of `validateTimestamps` (source lines 941-990), threading
the three accumulated lists; `i` is the JS loop index. -/
def validateLoop (videoDurationSeconds : Option Nat) :
    List (Str × Str) → Nat → ValidationResult → ValidationResult
  | [], _, st => st
  | (startTime, endTime) :: rest, i, st =>
    let startSeconds := timestampToSeconds startTime
    let endSeconds := timestampToSeconds endTime
    if jsGe startSeconds endSeconds then
      validateLoop videoDurationSeconds rest (i + 1)
        { st with errors := st.errors
            ++ ["Clip " ++ toString (i + 1) ++ ": Start time must be before end time"] }
    else if jsTruthy videoDurationSeconds && jsGt endSeconds videoDurationSeconds then
      validateLoop videoDurationSeconds rest (i + 1)
        { st with errors := st.errors
            ++ ["Clip " ++ toString (i + 1) ++ ": End time exceeds video duration"] }
    else
      validateLoop videoDurationSeconds rest (i + 1)
        { valid := st.valid ++ [(startTime, endTime)],
          errors := st.errors,
          warnings := st.warnings
            ++ overlapWarnings i startSeconds endSeconds st.valid
            ++ boundaryWarnings i startTime startSeconds }

/-- `validateTimestamps` (source lines 934-993).  `videoDuration` is the
optional duration string; absent, empty or unparseable durations all make the
`if (videoDurationSeconds)` guard falsy. -/
def validateTimestamps (timestamps : List (Str × Str)) (videoDuration : Option Str) :
    ValidationResult :=
  let videoDurationSeconds := videoDuration.bind timestampToSeconds
  validateLoop videoDurationSeconds timestamps 0 ⟨[], [], []⟩

/-- `secondsToTimestamp` (source lines 1539-1550) on the integer second
counts this development feeds it (the `(seconds % 1) * 1000` milliseconds
term is then `0`, rendered `"000"`). -/
def secondsToTimestamp (seconds : Nat) : Str :=
  let hours := seconds / 3600
  let minutes := (seconds % 3600) / 60
  let remainingSeconds := seconds % 60
  let milliseconds := (seconds % 1) * 1000
  if hours > 0 then
    padStart 2 '0' (natToStr hours) ++ ':' :: padStart 2 '0' (natToStr minutes)
      ++ ':' :: padStart 2 '0' (natToStr remainingSeconds)
      ++ '.' :: padStart 3 '0' (natToStr milliseconds)
  else
    padStart 2 '0' (natToStr minutes) ++ ':' :: padStart 2 '0' (natToStr remainingSeconds)
      ++ '.' :: padStart 3 '0' (natToStr milliseconds)

/-- The adaptive parameters chosen by `generateRandomTimestamps`
(source lines 1556-1581).  `maxClipDuration` is a JS float expression,
modelled in `ℚ`. -/
structure RandomCutParams where
  targetClips : Nat
  minClipDuration : Nat
  maxClipDuration : ℚ
deriving DecidableEq

/-- Breakpoint table of `generateRandomTimestamps` (source lines 1561-1581). -/
def randomCutParams (totalSeconds : Nat) : RandomCutParams :=
  if totalSeconds < 30 then
    let targetClips := max 2 (totalSeconds / 8)
    { targetClips := targetClips, minClipDuration := 3,
      maxClipDuration := min 5 ((totalSeconds : ℚ) / (targetClips : ℚ) - 1) }
  else if totalSeconds < 60 then
    let targetClips := max 3 (totalSeconds / 15)
    { targetClips := targetClips, minClipDuration := 5,
      maxClipDuration := min 10 ((totalSeconds : ℚ) / (targetClips : ℚ) - 1) }
  else if totalSeconds < 120 then
    let targetClips := max 4 (totalSeconds / 20)
    { targetClips := targetClips, minClipDuration := 8,
      maxClipDuration := min 15 ((totalSeconds : ℚ) / (targetClips : ℚ) - 1) }
  else
    { targetClips := 5, minClipDuration := 15, maxClipDuration := 30 }

/-- The deterministic head of `generateRandomTimestamps` (source lines
1553-1587): parameter selection followed by the sufficiency check that
throws `Video too short ...`.  Only this part can fail; the random sampling
loop that follows always returns a (possibly shorter) list. -/
def generateRandomTimestampsCheck (totalSeconds : Nat) :
    Except String RandomCutParams :=
  let p := randomCutParams totalSeconds
  let totalNeededDuration := p.targetClips * p.minClipDuration
  if totalSeconds < totalNeededDuration then
    .error ("Video too short (" ++ String.mk (natToStr totalSeconds)
      ++ "s). Need at least " ++ String.mk (natToStr totalNeededDuration)
      ++ "s for " ++ String.mk (natToStr p.targetClips) ++ " clips of "
      ++ String.mk (natToStr p.minClipDuration) ++ "s each.")
  else
    .ok p

/-- One entry of `chunkStore` (source lines 76-84); `chunkFiles` is the set
of zero-padded chunk indices present in the session's staging directory. -/
structure UploadSession where
  fileName : Str
  totalSize : Nat
  totalChunks : Nat
  receivedChunks : Nat
  finalizing : Bool
  chunkFiles : List Nat
deriving DecidableEq

/-- The `/api/upload-chunk` handler for one `uploadId` (source lines
114-164): a missing session is lazily created with `receivedChunks = 0`
(lines 122-136); the chunk is renamed into the staging directory, where a
repeated index overwrites the same zero-padded file name (lines 141-145);
then `receivedChunks` and `totalSize` are incremented unconditionally
(lines 149-150) — also when the index was already present. -/
def uploadChunkStep (sess : Option UploadSession) (fileName : Str)
    (totalChunks : Nat) (chunkIndex : Nat) (chunkSize : Nat) : UploadSession :=
  let u : UploadSession := match sess with
    | none =>
      { fileName := fileName, totalSize := 0, totalChunks := totalChunks,
        receivedChunks := 0, finalizing := false, chunkFiles := [] }
    | some u => u
  { u with
    receivedChunks := u.receivedChunks + 1,
    totalSize := u.totalSize + chunkSize,
    chunkFiles :=
      if u.chunkFiles.contains chunkIndex then u.chunkFiles
      else chunkIndex :: u.chunkFiles }

/-- A session after a sequence of chunk uploads `(chunkIndex, chunkSize)`,
starting from no session. -/
def runUploads (fileName : Str) (totalChunks : Nat)
    (events : List (Nat × Nat)) : Option UploadSession :=
  events.foldl
    (fun s e => some (uploadChunkStep s fileName totalChunks e.1 e.2)) none

/-- Outcome of the guard section of `/api/finalize-upload`. -/
inductive FinalizeOutcome
  /-- 400 `Upload session not found` (source lines 171-174). -/
  | notFound
  /-- 400 `Incomplete upload` (source lines 176-178). -/
  | incomplete
  /-- 409 `Upload already being finalized` (source lines 181-183). -/
  | conflict
  /-- All guards passed; `finalizing` is set and assembly I/O starts
  (source lines 184-190). -/
  | proceed
deriving DecidableEq

/-- The guard section of `/api/finalize-upload` (source lines 167-190),
which runs synchronously before any file I/O: unknown session, incomplete
chunk count, then the single-winner `finalizing` flag, which is set in the
same atomic step that checks it. -/
def finalizeBegin : Option UploadSession → FinalizeOutcome × Option UploadSession
  | none => (.notFound, none)
  | some u =>
    if u.receivedChunks ≠ u.totalChunks then (.incomplete, some u)
    else if u.finalizing then (.conflict, some u)
    else (.proceed, some { u with finalizing := true })

/-- Outcomes of `n` successive finalize attempts on one session (no
completion or deletion in between). -/
def finalizeBeginTrace : Option UploadSession → Nat → List FinalizeOutcome
  | _, 0 => []
  | s, n + 1 => (finalizeBegin s).1 :: finalizeBeginTrace (finalizeBegin s).2 n

/-- Number of attempts in a list of finalize outcomes that passed all guards
and started assembly. -/
def countProceed : List FinalizeOutcome → Nat
  | [] => 0
  | .proceed :: rest => countProceed rest + 1
  | _ :: rest => countProceed rest

/-- Job status enum of the `processingJobs` registry (source line 23). -/
inductive JobStatus
  | processing
  | completed
  | error
deriving DecidableEq

/-- One entry of the `processingJobs` registry.  The completion write
(source lines 666-677) replaces the record with one that omits `totalItems`
and `startTime`, hence those fields are optional. -/
structure ProcessingJob where
  totalClips : Nat
  totalGifs : Nat
  totalThumbnails : Nat
  totalCanvas : Nat
  totalOutputs : Nat
  currentClip : Nat
  progress : ℤ
  status : JobStatus
  errors : List String
  totalItems : Option Nat
  startTime : Option Nat
  downloadPath : Option String
deriving DecidableEq

/-- The registry entry created at plan submission (source lines 452-477). -/
def initJob (numValid numRatios : Nat)
    (generateGif generateThumbnails generateCanvas : Bool)
    (startTime : Nat) : ProcessingJob :=
  let totalClips := numValid * numRatios
  let totalGifs := if generateGif then 10 else 0
  let totalThumbnails := if generateThumbnails then 10 else 0
  let totalCanvas := if generateCanvas then 5 else 0
  let totalItems := totalClips + (if generateGif then 1 else 0)
    + (if generateThumbnails then 1 else 0) + (if generateCanvas then 1 else 0)
  { totalClips := totalClips, totalGifs := totalGifs,
    totalThumbnails := totalThumbnails, totalCanvas := totalCanvas,
    totalOutputs := totalClips + totalGifs + totalThumbnails + totalCanvas,
    currentClip := 0, progress := 0, status := .processing, errors := [],
    totalItems := some totalItems, startTime := some startTime,
    downloadPath := none }

/-- The registry entry written on success (source lines 665-677); note it
uses the plain valid-range count for `totalClips` and `currentClip`. -/
def completedJob (numValid : Nat)
    (generateGif generateThumbnails generateCanvas : Bool)
    (errors : List String) (zipName : String) : ProcessingJob :=
  let totalGifs := if generateGif then 10 else 0
  let totalThumbnails := if generateThumbnails then 10 else 0
  let totalCanvas := if generateCanvas then 5 else 0
  { totalClips := numValid, totalGifs := totalGifs,
    totalThumbnails := totalThumbnails, totalCanvas := totalCanvas,
    totalOutputs := numValid + totalGifs + totalThumbnails + totalCanvas,
    currentClip := numValid, progress := 100, status := .completed,
    errors := errors, totalItems := none, startTime := none,
    downloadPath := some ("/api/download/" ++ zipName) }

/-- Response of the tail of `/api/process-clips-direct`. -/
inductive ProcessResponse
  /-- 500 `No content was generated - no clips, GIFs, thumbnails, or Canvas
  loops were processed` with the accumulated error list
  (source lines 611-618). -/
  | noContent (errors : List String)
  /-- 200 success with item count, download path and error list
  (source lines 679-685). -/
  | ok (clipsProcessed : Nat) (downloadPath : String) (errors : List String)
deriving DecidableEq

/-- The tail of `/api/process-clips-direct` after all categories were
attempted (source lines 611-685): with zero produced artifacts it returns
the failure response **without touching the registry entry**; otherwise it
zips the outputs and overwrites the entry with the completed record. -/
def finishProcessing (entry : Option ProcessingJob) (processedCount : Nat)
    (numValid : Nat) (generateGif generateThumbnails generateCanvas : Bool)
    (errors : List String) (zipName : String) :
    ProcessResponse × Option ProcessingJob :=
  if processedCount = 0 then (.noContent errors, entry)
  else
    (.ok processedCount ("/api/download/" ++ zipName) errors,
     some (completedJob numValid generateGif generateThumbnails generateCanvas
       errors zipName))

/-- The `/api/processing-progress/:videoId` handler (source lines 828-842):
404 when the registry has no entry, otherwise the stored record verbatim. -/
def pollProcessingProgress : Option ProcessingJob → Option ProcessingJob
  | none => none
  | some progress => some progress

/-- The `/api/cancel-processing/:videoId` handler (source lines 845-866):
404 when the registry has no entry (`false`); otherwise — with no check of
the current status — the entry is overwritten with status `error` and an
appended cancellation note. -/
def cancelProcessing : Option ProcessingJob → Option ProcessingJob × Bool
  | none => (none, false)
  | some job =>
    (some { job with
        status := .error,
        errors := job.errors ++ ["Processing cancelled by user"] }, true)

/-- The sequence of values taken by `job.progress` over one successful,
sequentially-scheduled run of `/api/process-clips-direct`: the `0` of the
initial record (line 472); one write per `(range, ratio)` clip iteration
(line 496, denominator `totalClips`); if GIFs are requested, the stage
header write (line 551, numerator `valid.length`, denominator `totalItems`)
followed by one write per completed GIF (line 1722, denominator
`totalOutputs`, capped at 95); likewise for thumbnails (lines 575, 1807)
and Canvas loops (lines 597, 1941); and the final `100` of the completion
record (line 673).  Within the GIF/thumbnail/Canvas stages the units run
concurrently; index order is one admissible completion order, and the
stage-header writes are ordered before them by `await` in every schedule. -/
def progressTrace (numValid numRatios : Nat)
    (generateGif generateThumbnails generateCanvas : Bool)
    (durationSeconds : Nat) : List ℤ :=
  let totalClips := numValid * numRatios
  let totalGifs := if generateGif then 10 else 0
  let totalThumbnails := if generateThumbnails then 10 else 0
  let totalCanvas := if generateCanvas then 5 else 0
  let totalOutputs := totalClips + totalGifs + totalThumbnails + totalCanvas
  let totalItems := totalClips + (if generateGif then 1 else 0)
    + (if generateThumbnails then 1 else 0) + (if generateCanvas then 1 else 0)
  let numGifs := min 10 (durationSeconds / 6)
  [0]
  ++ (List.range totalClips).map (fun k => roundPct (k + 1) totalClips)
  ++ (if generateGif then
        roundPct numValid totalItems
          :: (List.range numGifs).map (fun i =>
              min 95 (roundPct (totalClips + i + 1) totalOutputs))
      else [])
  ++ (if generateThumbnails then
        roundPct (numValid + (if generateGif then 1 else 0)) totalItems
          :: (List.range 10).map (fun i =>
              min 95 (roundPct (totalClips + totalGifs + i + 1) totalOutputs))
      else [])
  ++ (if generateCanvas then
        roundPct (numValid + (if generateGif then 1 else 0)
            + (if generateThumbnails then 1 else 0)) totalItems
          :: (List.range 5).map (fun c =>
              min 95 (roundPct (totalClips + totalGifs + totalThumbnails + (c + 1)) totalOutputs))
      else [])
  ++ [100]

/-! ### Helper lemmas about the embedded JS string primitives -/

theorem digitChar_isDigit (n : Nat) (h : n < 10) : (Nat.digitChar n).isDigit = true := by
  interval_cases n <;> decide

theorem digitVal_digitChar (n : Nat) (h : n < 10) : digitVal (Nat.digitChar n) = n := by
  interval_cases n <;> decide

theorem jsIsWs_digitChar (n : Nat) (h : n < 10) : jsIsWs (Nat.digitChar n) = false := by
  interval_cases n <;> decide

theorem beq_colon_digitChar (n : Nat) (h : n < 10) : (Nat.digitChar n == ':') = false := by
  interval_cases n <;> decide

theorem beq_semi_digitChar (n : Nat) (h : n < 10) : (Nat.digitChar n == ';') = false := by
  interval_cases n <;> decide

theorem beq_dot_digitChar (n : Nat) (h : n < 10) : (Nat.digitChar n == '.') = false := by
  interval_cases n <;> decide

theorem natToStr_eq_of_lt_10 (n : Nat) (h : n < 10) : natToStr n = [Nat.digitChar n] := by
  unfold natToStr natToStrFuel
  simp [h]

theorem natToStr_eq_twoDigits (n : Nat) (h10 : 10 ≤ n) (h99 : n ≤ 99) :
    natToStr n = twoDigits n := by
  obtain ⟨k, rfl⟩ : ∃ k, n = k + 1 := ⟨n - 1, by omega⟩
  have h1 : ¬ (k + 1 < 10) := by omega
  have h2 : (k + 1) / 10 < 10 := by omega
  show natToStrFuel (k + 1 + 1) (k + 1) = _
  rw [natToStrFuel, if_neg h1, natToStrFuel, if_pos h2]
  rfl

theorem padStart_two_natToStr (n : Nat) (h : n ≤ 99) :
    padStart 2 '0' (natToStr n) = twoDigits n := by
  by_cases h10 : n < 10
  · rw [natToStr_eq_of_lt_10 n h10]
    have hd : n / 10 = 0 := by omega
    have hm : n % 10 = n := by omega
    simp [padStart, twoDigits, hd, hm]
    rfl
  · rw [natToStr_eq_twoDigits n (by omega) h]
    simp [padStart, twoDigits]

theorem natOfDigits_pair (a b : Char) :
    natOfDigits [a, b] = 10 * digitVal a + digitVal b := by
  simp [natOfDigits]

theorem jsNumber_twoDigits (n : Nat) (h : n ≤ 99) : jsNumber (twoDigits n) = some n := by
  have d1 := digitChar_isDigit (n / 10) (by omega)
  have d2 := digitChar_isDigit (n % 10) (by omega)
  have v1 := digitVal_digitChar (n / 10) (by omega)
  have v2 := digitVal_digitChar (n % 10) (by omega)
  simp [jsNumber, twoDigits, d1, d2, natOfDigits_pair, v1, v2]
  omega

theorem dropWhile_eq_self_of_all (p : Char → Bool) (l : Str)
    (h : ∀ c ∈ l, p c = false) : l.dropWhile p = l := by
  cases l with
  | nil => rfl
  | cons a t => simp [List.dropWhile_cons, h a (by simp)]

theorem jsTrim_eq_self (l : Str) (h : ∀ c ∈ l, jsIsWs c = false) : jsTrim l = l := by
  unfold jsTrim
  rw [dropWhile_eq_self_of_all _ _ h]
  rw [dropWhile_eq_self_of_all _ _ (fun c hc => h c (List.mem_reverse.mp hc))]
  exact List.reverse_reverse l

theorem map_id_of_fixed {α : Type} (f : α → α) (l : List α)
    (h : ∀ x ∈ l, f x = x) : l.map f = l := by
  induction l with
  | nil => rfl
  | cons a t ih => simp_all

theorem splitOnPred_ne_nil (p : Char → Bool) (l : Str) : splitOnPred p l ≠ [] := by
  induction l with
  | nil => simp [splitOnPred]
  | cons a t ih =>
    unfold splitOnPred
    by_cases hp : p a
    · simp [hp]
    · simp only [hp]
      cases hsplit : splitOnPred p t with
      | nil => simp
      | cons r rs => simp

theorem splitOnPred_no_sep (p : Char → Bool) (xs : Str)
    (h : ∀ x ∈ xs, p x = false) : splitOnPred p xs = [xs] := by
  induction xs with
  | nil => rfl
  | cons a t ih =>
    have ha : p a = false := h a (by simp)
    have ht := ih (fun x hx => h x (by simp [hx]))
    unfold splitOnPred
    simp [ha, ht]

theorem splitOnPred_append_sep (p : Char → Bool) (xs ys : Str) (c : Char)
    (hxs : ∀ x ∈ xs, p x = false) (hc : p c = true) :
    splitOnPred p (xs ++ c :: ys) = xs :: splitOnPred p ys := by
  induction xs with
  | nil => simp [splitOnPred, hc]
  | cons a t ih =>
    have ha : p a = false := hxs a (by simp)
    have ht := ih (fun x hx => hxs x (by simp [hx]))
    show splitOnPred p (a :: (t ++ c :: ys)) = _
    conv_lhs => rw [splitOnPred]
    simp only [ha, Bool.false_eq_true, if_false]
    rw [ht]

theorem not_ws_of_isDigit (c : Char) (h : c.isDigit = true) : jsIsWs c = false := by
  have h1 : ('0' : Char) ≤ c ∧ c ≤ '9' := by
    simpa [Char.isDigit] using h
  apply Bool.eq_false_iff.mpr
  intro hws
  have hmem : c ∈ jsWhitespaceChars := by
    simpa [jsIsWs] using hws
  simp only [jsWhitespaceChars, List.mem_cons, List.mem_singleton,
    List.mem_nil_iff, or_false] at hmem
  rcases hmem with rfl | rfl | rfl | rfl | rfl | rfl | rfl | rfl | rfl | rfl | rfl | rfl
    | rfl | rfl | rfl | rfl | rfl | rfl | rfl | rfl | rfl | rfl | rfl | rfl | rfl <;>
    exact absurd h1 (by decide)

theorem not_beq_of_isDigit (c t : Char) (h : c.isDigit = true)
    (ht : t.isDigit = false) : (c == t) = false := by
  apply Bool.eq_false_iff.mpr
  intro hbeq
  have hct : c = t := by simpa using hbeq
  subst hct
  simp_all

theorem twoDigits_length (n : Nat) : (twoDigits n).length = 2 := rfl

theorem twoDigits_all_digit (n : Nat) (h : n ≤ 99) :
    (twoDigits n).all Char.isDigit = true := by
  simp [twoDigits, digitChar_isDigit (n / 10) (by omega),
    digitChar_isDigit (n % 10) (by omega)]

theorem natToStr_all_digit_of_le_99 (n : Nat) (h : n ≤ 99) :
    (natToStr n).all Char.isDigit = true := by
  by_cases h10 : n < 10
  · rw [natToStr_eq_of_lt_10 n h10]
    simp [digitChar_isDigit n h10]
  · rw [natToStr_eq_twoDigits n (by omega) h]
    exact twoDigits_all_digit n h

theorem splitOnChar_colon_two (A B : Str)
    (hA : ∀ x ∈ A, (x == ':') = false) (hB : ∀ x ∈ B, (x == ':') = false) :
    splitOnChar ':' (A ++ ':' :: B) = [A, B] := by
  unfold splitOnChar
  rw [splitOnPred_append_sep _ A B ':' hA (by decide)]
  rw [splitOnPred_no_sep _ B hB]

theorem splitOnChar_colon_three (A B C : Str)
    (hA : ∀ x ∈ A, (x == ':') = false) (hB : ∀ x ∈ B, (x == ':') = false)
    (hC : ∀ x ∈ C, (x == ':') = false) :
    splitOnChar ':' (A ++ ':' :: (B ++ ':' :: C)) = [A, B, C] := by
  unfold splitOnChar
  rw [splitOnPred_append_sep _ A (B ++ ':' :: C) ':' hA (by decide)]
  rw [splitOnPred_append_sep _ B C ':' hB (by decide)]
  rw [splitOnPred_no_sep _ C hC]

theorem twoDigits_not_colon (n : Nat) (h : n ≤ 99) :
    ∀ x ∈ twoDigits n, (x == ':') = false := by
  intro x hx
  simp [twoDigits] at hx
  rcases hx with rfl | rfl
  · exact beq_colon_digitChar _ (by omega)
  · exact beq_colon_digitChar _ (by omega)

theorem timestampToSeconds_twoDigits_three (h m s : Nat)
    (hh : h ≤ 99) (hm : m ≤ 99) (hs : s ≤ 99) :
    timestampToSeconds (twoDigits h ++ ':' :: (twoDigits m ++ ':' :: twoDigits s))
      = some (h * 3600 + m * 60 + s) := by
  unfold timestampToSeconds
  rw [splitOnChar_colon_three _ _ _ (twoDigits_not_colon h hh) (twoDigits_not_colon m hm)
    (twoDigits_not_colon s hs)]
  simp [jsNumber_twoDigits h hh, jsNumber_twoDigits m hm, jsNumber_twoDigits s hs]

theorem secondsToTimestamp_hms (h m s : Nat)
    (hh : h ≤ 99) (hm : m ≤ 59) (hs : s ≤ 59) :
    secondsToTimestamp (h * 3600 + m * 60 + s)
      = if 0 < h
        then twoDigits h ++ ':' :: twoDigits m ++ ':' :: twoDigits s ++ '.' :: ['0', '0', '0']
        else twoDigits m ++ ':' :: twoDigits s ++ '.' :: ['0', '0', '0'] := by
  have e1 : (h * 3600 + m * 60 + s) / 3600 = h := by omega
  have e2 : (h * 3600 + m * 60 + s) % 3600 / 60 = m := by omega
  have e3 : (h * 3600 + m * 60 + s) % 60 = s := by omega
  have e4 : (h * 3600 + m * 60 + s) % 1 * 1000 = 0 := by omega
  have e5 : padStart 3 '0' (natToStr 0) = ['0', '0', '0'] := by decide
  simp only [secondsToTimestamp, e1, e2, e3, e4, e5,
    padStart_two_natToStr h hh, padStart_two_natToStr m (by omega),
    padStart_two_natToStr s (by omega)]

theorem normalizeTimestamp_digit_components (A B : Str)
    (hA : A.all Char.isDigit = true) (hB : B.all Char.isDigit = true)
    (hAl : A.length = 1 ∨ A.length = 2) (hBl : B.length = 2) :
    normalizeTimestamp (A ++ ':' :: B)
      = some ('0' :: '0' :: ':' :: padStart 2 '0' A ++ ':' :: B) := by
  have hAd : ∀ c ∈ A, c.isDigit = true := by simpa [List.all_eq_true] using hA
  have hBd : ∀ c ∈ B, c.isDigit = true := by simpa [List.all_eq_true] using hB
  have hmemws : ∀ c ∈ A ++ ':' :: B, jsIsWs c = false := by
    intro c hc
    rcases List.mem_append.mp hc with h | h
    · exact not_ws_of_isDigit c (hAd c h)
    · rcases List.mem_cons.mp h with rfl | h
      · decide
      · exact not_ws_of_isDigit c (hBd c h)
  have hmap : ∀ c ∈ A ++ ':' :: B, (if c == ';' || c == '.' then ':' else c) = c := by
    intro c hc
    have hcd : c.isDigit = true ∨ c = ':' := by
      rcases List.mem_append.mp hc with h | h
      · exact .inl (hAd c h)
      · rcases List.mem_cons.mp h with rfl | h
        · exact .inr rfl
        · exact .inl (hBd c h)
    rcases hcd with h | rfl
    · simp [not_beq_of_isDigit c ';' h (by decide), not_beq_of_isDigit c '.' h (by decide)]
    · decide
  have hsplit : splitOnChar ':' (A ++ ':' :: B) = [A, B] :=
    splitOnChar_colon_two A B
      (fun x hx => not_beq_of_isDigit x ':' (hAd x hx) (by decide))
      (fun x hx => not_beq_of_isDigit x ':' (hBd x hx) (by decide))
  have hcond : ((A.length == 1 || A.length == 2) && A.all Char.isDigit
      && (B.length == 2) && B.all Char.isDigit) = true := by
    rcases hAl with h1 | h1 <;> simp [h1, hBl, hA, hB]
  simp only [normalizeTimestamp]
  rw [jsTrim_eq_self _ hmemws, map_id_of_fixed _ _ hmap, hsplit]
  simp [hcond]

theorem natToStr_length_cases (m : Nat) (hm : m ≤ 99) :
    (natToStr m).length = 1 ∨ (natToStr m).length = 2 := by
  by_cases h10 : m < 10
  · left
    rw [natToStr_eq_of_lt_10 m h10]
    rfl
  · right
    rw [natToStr_eq_twoDigits m (by omega) hm]
    rfl

theorem roundPct_eq_floor (num den : Nat) (h : den ≠ 0) :
    roundPct num den = ⌊(num : ℚ) / (den : ℚ) * 100 + 1 / 2⌋ := by
  have hd : ((den : ℚ)) ≠ 0 := Nat.cast_ne_zero.mpr h
  have hq : (num : ℚ) / (den : ℚ) * 100 + 1 / 2
      = ((200 * num + den : ℤ) : ℚ) / ((2 * den : ℕ) : ℚ) := by
    push_cast
    field_simp
    ring
  rw [hq, Rat.floor_intCast_div_natCast, roundPct]
  push_cast [Int.ofNat_ediv]
  norm_num

theorem validateLoop_valid_of_falsy (vds : Option Nat) (hvds : jsTruthy vds = false) :
    ∀ (tss : List (Str × Str)) (i : Nat) (st : ValidationResult),
      (validateLoop vds tss i st).valid
        = st.valid ++ tss.filter
            (fun p => !(jsGe (timestampToSeconds p.1) (timestampToSeconds p.2))) := by
  intro tss
  induction tss with
  | nil =>
    intro i st
    simp [validateLoop]
  | cons p rest ih =>
    intro i st
    obtain ⟨startTime, endTime⟩ := p
    simp only [validateLoop]
    cases hge : jsGe (timestampToSeconds startTime) (timestampToSeconds endTime) with
    | true => simp [hge, ih, List.filter_cons]
    | false => simp [hge, hvds, ih, List.filter_cons, List.append_assoc]

theorem uploads_foldl_receivedChunks (fileName : Str) (totalChunks : Nat) :
    ∀ (events : List (Nat × Nat)) (u0 : UploadSession),
      ∃ u, events.foldl
          (fun s e => some (uploadChunkStep s fileName totalChunks e.1 e.2)) (some u0)
          = some u
        ∧ u.receivedChunks = u0.receivedChunks + events.length := by
  intro events
  induction events with
  | nil =>
    intro u0
    exact ⟨u0, rfl, by simp⟩
  | cons e rest ih =>
    intro u0
    obtain ⟨u, hu, hcount⟩ := ih (uploadChunkStep (some u0) fileName totalChunks e.1 e.2)
    refine ⟨u, by simpa using hu, ?_⟩
    rw [hcount]
    simp [uploadChunkStep]
    omega

theorem finalizeBeginTrace_locked : ∀ (n : Nat) (u : UploadSession),
    u.finalizing = true →
    countProceed (finalizeBeginTrace (some u) n) = 0 := by
  intro n
  induction n with
  | zero => intro u hu; rfl
  | succ n ih =>
    intro u hu
    rcases eq_or_ne u.receivedChunks u.totalChunks with heq | hne
    · have hfb : finalizeBegin (some u) = (.conflict, some u) := by
        simp [finalizeBegin, heq, hu]
      simp only [finalizeBeginTrace, hfb]
      simpa [countProceed] using ih u hu
    · have hfb : finalizeBegin (some u) = (.incomplete, some u) := by
        simp [finalizeBegin, hne]
      simp only [finalizeBeginTrace, hfb]
      simpa [countProceed] using ih u hu

theorem finalizeBeginTrace_count_le_one : ∀ (n : Nat) (s : Option UploadSession),
    countProceed (finalizeBeginTrace s n) ≤ 1 := by
  intro n
  induction n with
  | zero => intro s; simp [finalizeBeginTrace, countProceed]
  | succ n ih =>
    intro s
    match s with
    | none =>
      have hfb : finalizeBegin none = (.notFound, none) := rfl
      simp only [finalizeBeginTrace, hfb]
      simpa [countProceed] using ih none
    | some u =>
      rcases eq_or_ne u.receivedChunks u.totalChunks with heq | hne
      · by_cases hf : u.finalizing
        · have hfb : finalizeBegin (some u) = (.conflict, some u) := by
            simp [finalizeBegin, heq, hf]
          simp only [finalizeBeginTrace, hfb]
          simpa [countProceed] using ih (some u)
        · have hfb : finalizeBegin (some u)
              = (.proceed, some { u with finalizing := true }) := by
            simp [finalizeBegin, heq, hf]
          simp only [finalizeBeginTrace, hfb]
          have hzero := finalizeBeginTrace_locked n { u with finalizing := true } rfl
          simp [countProceed, hzero]
      · have hfb : finalizeBegin (some u) = (.incomplete, some u) := by
          simp [finalizeBegin, hne]
        simp only [finalizeBeginTrace, hfb]
        simpa [countProceed] using ih (some u)

/-! ### Claim theorems -/

/-- C1: job progress exposed to polling is **not** monotonically
non-decreasing.  With one valid range, one aspect ratio, GIF export enabled
and a 60 s video, the clip-loop write reports 100 % (denominator
`totalClips`, line 496), the GIF-stage header write then drops to 50 %
(denominator `totalItems`, line 551), and the per-GIF writes restart at 18 %
(denominator `totalOutputs`, line 1722) — a deterministic decrease long
before the job terminates. -/
theorem progress_not_monotone_with_gif_stage :
    progressTrace 1 1 true false false 60
        = [0, 100, 50, 18, 27, 36, 45, 55, 64, 73, 82, 91, 95, 100]
      ∧ nonDecreasing (progressTrace 1 1 true false false 60) = false := by
  decide

/-- C2 counterexample: submitting chunk index 0 twice in a session declared
with `totalChunks = 1` drives `receivedChunks` to 2, exceeding
`totalChunks`. -/
theorem receivedChunks_exceeds_totalChunks_on_resubmission :
    (uploadChunkStep (some (uploadChunkStep none [] 1 0 5)) [] 1 0 5).receivedChunks = 2
      ∧ (uploadChunkStep (some (uploadChunkStep none [] 1 0 5)) [] 1 0 5).totalChunks = 1 := by
  decide

/-- C2 (amended): `receivedChunks` counts accepted chunk-upload operations —
the handler increments it unconditionally, including for a re-submitted
index — so after `n` uploads it equals `n`; it is bounded by `totalChunks`
only when no index is ever repeated or out of range, not in general. -/
theorem receivedChunks_counts_upload_events (fileName : Str) (totalChunks : Nat)
    (events : List (Nat × Nat)) (hne : events ≠ []) :
    ∃ u, runUploads fileName totalChunks events = some u
      ∧ u.receivedChunks = events.length := by
  obtain ⟨e, rest, rfl⟩ : ∃ e rest, events = e :: rest := by
    cases events with
    | nil => exact absurd rfl hne
    | cons e rest => exact ⟨e, rest, rfl⟩
  obtain ⟨u, hu, hcount⟩ := uploads_foldl_receivedChunks fileName totalChunks rest
    (uploadChunkStep none fileName totalChunks e.1 e.2)
  refine ⟨u, by simpa [runUploads] using hu, ?_⟩
  rw [hcount]
  simp [uploadChunkStep]
  omega

theorem receivedChunks_counts_upload_events_witness :
    ∃ u, runUploads [] 1 [(0, 5), (0, 5)] = some u ∧ u.receivedChunks = 2 :=
  receivedChunks_counts_upload_events [] 1 [(0, 5), (0, 5)] (by decide)

/-- C3: the finalize guards — reject an unknown session, reject when
`receivedChunks ≠ totalChunks`, return a conflict when a finalize is already
in flight — and the single-winner property: the `finalizing` flag is checked
and set in the same synchronous pre-I/O step, so among any number of
successive finalize calls on one session at most one proceeds to assembly. -/
theorem finalize_guards_and_single_winner :
    ((finalizeBegin none).1 = .notFound)
      ∧ (∀ u : UploadSession, u.receivedChunks ≠ u.totalChunks →
          (finalizeBegin (some u)).1 = .incomplete)
      ∧ (∀ u : UploadSession, u.receivedChunks = u.totalChunks → u.finalizing = true →
          (finalizeBegin (some u)).1 = .conflict)
      ∧ (∀ u : UploadSession, u.receivedChunks = u.totalChunks → u.finalizing = false →
          (finalizeBegin (some u)).1 = .proceed
            ∧ (finalizeBegin (some u)).2 = some { u with finalizing := true })
      ∧ (∀ (s : Option UploadSession) (n : Nat),
          countProceed (finalizeBeginTrace s n) ≤ 1) := by
  refine ⟨rfl, ?_, ?_, ?_, ?_⟩
  · intro u h
    simp [finalizeBegin, h]
  · intro u h hf
    simp [finalizeBegin, h, hf]
  · intro u h hf
    constructor <;> simp [finalizeBegin, h, hf]
  · intro s n
    exact finalizeBeginTrace_count_le_one n s

theorem finalize_guards_and_single_winner_witness :
    ((finalizeBegin (some
        { fileName := [], totalSize := 5, totalChunks := 2,
          receivedChunks := 1, finalizing := false, chunkFiles := [0] })).1
        = .incomplete)
      ∧ ((finalizeBegin (some
          { fileName := [], totalSize := 9, totalChunks := 2,
            receivedChunks := 2, finalizing := true, chunkFiles := [1, 0] })).1
          = .conflict)
      ∧ ((finalizeBegin (some
          { fileName := [], totalSize := 9, totalChunks := 2,
            receivedChunks := 2, finalizing := false, chunkFiles := [1, 0] })).1
          = .proceed)
      ∧ countProceed (finalizeBeginTrace (some
          { fileName := [], totalSize := 9, totalChunks := 2,
            receivedChunks := 2, finalizing := false, chunkFiles := [1, 0] }) 3) ≤ 1 :=
  ⟨finalize_guards_and_single_winner.2.1 _ (by decide),
   finalize_guards_and_single_winner.2.2.1 _ rfl rfl,
   (finalize_guards_and_single_winner.2.2.2.1 _ rfl rfl).1,
   finalize_guards_and_single_winner.2.2.2.2 _ 3⟩

/-- C4 counterexample: a 10-second video is not below the generator's
thresholds: the sub-30 s branch asks for 2 clips of at least 3 s (6 s
total), the sufficiency check passes, and generation proceeds instead of
failing with an insufficient-duration error. -/
theorem randomCuts_ten_seconds_passes_check :
    generateRandomTimestampsCheck 10 = .ok (randomCutParams 10)
      ∧ (randomCutParams 10).targetClips = 2
      ∧ (randomCutParams 10).minClipDuration = 3 :=
  ⟨rfl, rfl, rfl⟩

/-- C4 (amended): the insufficient-duration error is raised exactly when the
total duration is under 6 seconds (the sub-30 s branch requires 2 clips ×
3 s; every longer branch's requirement is already met by its own lower
bound), so a 10-second video does not fail. -/
theorem randomCuts_insufficient_iff_lt_six (totalSeconds : Nat) :
    (∃ msg, generateRandomTimestampsCheck totalSeconds = .error msg)
      ↔ totalSeconds < 6 := by
  have hneed : (randomCutParams totalSeconds).targetClips
      * (randomCutParams totalSeconds).minClipDuration
      = if totalSeconds < 30 then 3 * max 2 (totalSeconds / 8)
        else if totalSeconds < 60 then 5 * max 3 (totalSeconds / 15)
        else if totalSeconds < 120 then 8 * max 4 (totalSeconds / 20)
        else 75 := by
    unfold randomCutParams
    split_ifs <;> simp <;> omega
  have hkey : (totalSeconds < (randomCutParams totalSeconds).targetClips
      * (randomCutParams totalSeconds).minClipDuration) ↔ totalSeconds < 6 := by
    rw [hneed]
    split_ifs <;> omega
  simp only [generateRandomTimestampsCheck]
  by_cases h6 : totalSeconds < 6
  · rw [if_pos (hkey.mpr h6)]
    simp [h6]
  · rw [if_neg (fun hc => h6 (hkey.mp hc))]
    simp [h6]

theorem randomCuts_insufficient_iff_lt_six_witness :
    ∃ msg, generateRandomTimestampsCheck 5 = .error msg :=
  (randomCuts_insufficient_iff_lt_six 5).mpr (by decide)

/-- C5 counterexample: for the valid normalized pair component "00:00:16",
`secondsToTimestamp (timestampToSeconds t)` is "00:16.000" — the hours field
is dropped and a milliseconds suffix appended — not `t`. -/
theorem roundtrip_not_identity_on_low_hours :
    (timestampToSeconds "00:00:16".data).map secondsToTimestamp
        = some "00:16.000".data
      ∧ some "00:16.000".data ≠ some "00:00:16".data := by
  decide

/-- C5 (amended): for every normalized `HH:MM:SS` timestamp (hours ≤ 99,
minutes and seconds < 60), converting to seconds and back yields the
timestamp with a ".000" milliseconds suffix when the hours field is nonzero,
and the shortened `MM:SS.000` form — not the original — when hours is
zero. -/
theorem roundtrip_appends_millis_and_drops_zero_hours (h m s : Nat)
    (hh : h ≤ 99) (hm : m ≤ 59) (hs : s ≤ 59) :
    (timestampToSeconds
        (twoDigits h ++ ':' :: (twoDigits m ++ ':' :: twoDigits s))).map secondsToTimestamp
      = some (if 0 < h
          then twoDigits h ++ ':' :: twoDigits m ++ ':' :: twoDigits s ++ '.' :: ['0', '0', '0']
          else twoDigits m ++ ':' :: twoDigits s ++ '.' :: ['0', '0', '0']) := by
  rw [timestampToSeconds_twoDigits_three h m s hh (by omega) (by omega)]
  simp only [Option.map_some']
  rw [secondsToTimestamp_hms h m s hh hm hs]

theorem roundtrip_appends_millis_and_drops_zero_hours_witness :
    (timestampToSeconds
        (twoDigits 1 ++ ':' :: (twoDigits 2 ++ ':' :: twoDigits 3))).map secondsToTimestamp
      = some (if 0 < 1
          then twoDigits 1 ++ ':' :: twoDigits 2 ++ ':' :: twoDigits 3 ++ '.' :: ['0', '0', '0']
          else twoDigits 2 ++ ':' :: twoDigits 3 ++ '.' :: ['0', '0', '0']) :=
  roundtrip_appends_millis_and_drops_zero_hours 1 2 3 (by decide) (by decide) (by decide)

/-- C6 counterexample: the line "0:75-2:00", whose seconds component 75 is
≥ 60, is not rejected with a format error: parsing and validation produce no
error entry and the candidate appears in the valid list (normalized to
"00:00:75"). -/
theorem seconds_component_75_accepted :
    (validateTimestamps (parseTimestamps "0:75-2:00".data) none).errors = []
      ∧ (validateTimestamps (parseTimestamps "0:75-2:00".data) none).valid
        = [("00:00:75".data, "00:02:00".data)] := by
  decide

/-- C6 (amended): `normalizeTimestamp` checks only the digit-width shape of
the components (`\d{1,2}:\d{2}`), never their numeric range: every
minutes value `m ≤ 99` paired with a seconds value `60 ≤ s ≤ 99` is accepted
and normalized positionally instead of being rejected as a format error. -/
theorem normalizeTimestamp_checks_width_not_value (m s : Nat)
    (hm : m ≤ 99) (hs60 : 60 ≤ s) (hs : s ≤ 99) :
    normalizeTimestamp (natToStr m ++ ':' :: natToStr s)
      = some ('0' :: '0' :: ':' :: twoDigits m ++ ':' :: twoDigits s) := by
  rw [natToStr_eq_twoDigits s (by omega) hs]
  rw [normalizeTimestamp_digit_components (natToStr m) (twoDigits s)
    (natToStr_all_digit_of_le_99 m hm) (twoDigits_all_digit s hs)
    (natToStr_length_cases m hm) (twoDigits_length s)]
  rw [padStart_two_natToStr m hm]

theorem normalizeTimestamp_checks_width_not_value_witness :
    normalizeTimestamp (natToStr 0 ++ ':' :: natToStr 75)
      = some ('0' :: '0' :: ':' :: twoDigits 0 ++ ':' :: twoDigits 75) :=
  normalizeTimestamp_checks_width_not_value 0 75 (by decide) (by decide) (by decide)

/-- C7: parsing the two-line text "0:16-0:35\n0:44-1:01" with no known
duration yields exactly the two valid normalized ranges in input order, an
empty error list, and exactly two warnings, one referencing clip 1 and one
referencing clip 2. -/
theorem parse_two_line_example_exact_output :
    validateTimestamps (parseTimestamps "0:16-0:35\n0:44-1:01".data) none
      = { valid := [("00:00:16".data, "00:00:35".data),
                    ("00:00:44".data, "00:01:01".data)],
          errors := [],
          warnings :=
            ["Clip 1: Starting at exact second (00:00:16) may show black frames. We\x27ll automatically nudge it forward 0.1s for cleaner cuts.",
             "Clip 2: Starting at exact second (00:00:44) may show black frames. We\x27ll automatically nudge it forward 0.1s for cleaner cuts."] } := by
  decide

/-- C8 counterexample: requesting cancellation of a job whose status is
already terminal (completed) is not idempotent — the stored record changes:
status flips to error and the cancellation note is appended. -/
theorem cancel_completed_job_mutates_it :
    (cancelProcessing (some (completedJob 1 false false false [] "out.zip"))).1
      ≠ some (completedJob 1 false false false [] "out.zip") := by
  decide

/-- C8 (amended): a cancellation request on any existing job — terminal or
not — unconditionally sets status error and appends the cancellation note,
and a repeated request appends one more note: the request is never a no-op
and repeating it keeps growing the error list. -/
theorem cancel_always_errors_and_appends_note (job : ProcessingJob) :
    ∃ j1 j2, (cancelProcessing (some job)).1 = some j1
      ∧ (cancelProcessing (some j1)).1 = some j2
      ∧ j1.status = .error
      ∧ j2.status = .error
      ∧ j1.errors = job.errors ++ ["Processing cancelled by user"]
      ∧ j2.errors = job.errors
          ++ ["Processing cancelled by user", "Processing cancelled by user"] := by
  refine ⟨_, _, rfl, rfl, rfl, rfl, rfl, by simp⟩

/-- C9: when the known duration string converts to 0 seconds (such as
"0:00") or to NaN (unparseable), the `if (videoDurationSeconds)` guard is
falsy and the end-exceeds-duration check is skipped entirely: the valid list
is exactly the candidates with start < end, no matter how far their ends
exceed the duration. -/
theorem duration_zero_skips_end_check (tss : List (Str × Str)) (dur : Str)
    (hd : jsTruthy (timestampToSeconds dur) = false) :
    (validateTimestamps tss (some dur)).valid
      = tss.filter
          (fun p => !(jsGe (timestampToSeconds p.1) (timestampToSeconds p.2))) := by
  have h := validateLoop_valid_of_falsy (timestampToSeconds dur) hd tss 0 ⟨[], [], []⟩
  simpa [validateTimestamps] using h

theorem duration_zero_skips_end_check_witness :
    (validateTimestamps [("00:00:01".data, "09:59:59".data)]
        (some "0:00".data)).valid
      = [("00:00:01".data, "09:59:59".data)] := by
  rw [duration_zero_skips_end_check [("00:00:01".data, "09:59:59".data)]
    "0:00".data (by decide)]
  decide

/-- C10: when zero artifacts were produced, the handler returns the
"nothing was generated" failure response and does not touch the registry
entry, so a job that was in status processing stays there and every
subsequent progress poll reports it still in flight. -/
theorem zero_output_keeps_job_processing (entry : ProcessingJob)
    (errs : List String) (numValid : Nat) (g t c : Bool) (zipName : String)
    (hst : entry.status = .processing) :
    (finishProcessing (some entry) 0 numValid g t c errs zipName).1
        = .noContent errs
      ∧ (finishProcessing (some entry) 0 numValid g t c errs zipName).2 = some entry
      ∧ (pollProcessingProgress
          (finishProcessing (some entry) 0 numValid g t c errs zipName).2).map
            ProcessingJob.status = some .processing := by
  refine ⟨rfl, rfl, ?_⟩
  simp [finishProcessing, pollProcessingProgress, hst]

theorem zero_output_keeps_job_processing_witness :
    (finishProcessing (some (initJob 2 1 true false false 0)) 0 2 true false false
        ["Failed to process clip 1 [16:9]: boom"] "out-clips.zip").1
      = .noContent ["Failed to process clip 1 [16:9]: boom"] :=
  (zero_output_keeps_job_processing (initJob 2 1 true false false 0)
    ["Failed to process clip 1 [16:9]: boom"] 2 true false false "out-clips.zip" rfl).1

theorem cancel_always_errors_and_appends_note_witness :
    ∃ j1 j2,
      (cancelProcessing (some (completedJob 1 false false false [] "out2.zip"))).1
          = some j1
        ∧ (cancelProcessing (some j1)).1 = some j2
        ∧ j1.status = .error
        ∧ j2.status = .error
        ∧ j1.errors = (completedJob 1 false false false [] "out2.zip").errors
            ++ ["Processing cancelled by user"]
        ∧ j2.errors = (completedJob 1 false false false [] "out2.zip").errors
            ++ ["Processing cancelled by user", "Processing cancelled by user"] :=
  cancel_always_errors_and_appends_note (completedJob 1 false false false [] "out2.zip")
